import Mathlib

/-!
# The `update-service` command of the cf command-line client

A shallow embedding of `cf/models/service_instance.go` and
`cf/commands/service/update_service.go`.

The command handler is synchronous glue over collaborators that are Go
interfaces (`terminal.UI`, `core_config.Reader`, `api.ServiceRepository`,
`plan_builder.PlanBuilder`) or library functions (`json.ParseJsonFromFileOrString`,
`T`, `terminal.EntityNameColor`, `terminal.CommandColor`, `strings.Title`).
None of their bodies belongs to the two embedded files, so they are parameters
of the model, gathered in `Env`.

Every call on a collaborator is an `Event`; a run of a procedure extends a
`Trace`, the chronological list of the calls made so far, each stored with the
answer it got.  The repository, the plan builder and the JSON reader answer as
functions of that trace, so the second `FindInstanceByName` of a run may answer
differently from the first.

The two failure calls of the user interface, `ui.Failed` and `ui.FailWithUsage`,
end the command invocation: the handler relies on it when it reads `c.Args()[0]`
with no guard of its own after `GetRequirements` has called `FailWithUsage`, and
the description of the command says of every failure that it is surfaced to the
user and followed by process termination.  A trace therefore ends with the first
of these calls.
-/

namespace CF

/-! ## Go values -/

/-- A Go `error` value, observed through its `Error()` method. -/
structure GoError where
  Error : String
deriving DecidableEq, Repr

deriving instance DecidableEq for Except

/-- The Go type `map[string]interface{}` of service parameters. The handler never
looks inside such a map, it only hands it on, so a map is represented by its
entries with rendered values; the nil map is the empty list. -/
abbrev ParamsMap := List (String × String)

/-! ## `cf/models/service_instance.go` -/

structure LastOperationFields where
  «Type» : String
  State : String
  Description : String
deriving DecidableEq, Repr

structure ServiceInstanceFields where
  Guid : String
  Name : String
  LastOperation : LastOperationFields
  SysLogDrainUrl : String
  ApplicationNames : List String
  Params : ParamsMap
  DashboardUrl : String
deriving DecidableEq, Repr

/-- Modelled from the spec: the declaration of `ServiceBindingFields` is in a file of
package `models` other than `service_instance.go`. The spec lists "bindings" among
the data of a service instance and says nothing of their content; no embedded code
reads a binding, which is represented by an identifier. -/
structure ServiceBindingFields where
  Guid : String
deriving DecidableEq, Repr

/-- Modelled from the spec: the declaration of `ServiceKeyFields` is in a file of
package `models` other than `service_instance.go`. The spec lists "keys" among the
data of a service instance and says nothing of their content; no embedded code
reads a key, which is represented by an identifier. -/
structure ServiceKeyFields where
  Guid : String
deriving DecidableEq, Repr

/-- Modelled from the spec: the declaration of `ServicePlanFields` is in a file of
package `models` other than `service_instance.go`. The spec describes a plan as
"identifier, name, scoped to an offering and organization"; the embedded code reads
`Guid` and `Name`. -/
structure ServicePlanFields where
  Guid : String
  Name : String
  ServiceOfferingGuid : String
  OrgNames : List String
deriving DecidableEq, Repr

/-- Modelled from the spec: the declaration of `ServiceOfferingFields` is in a file of
package `models` other than `service_instance.go`. The spec names the "associated
offering" of a service instance; the embedded code reads `Guid` and `Label`. -/
structure ServiceOfferingFields where
  Guid : String
  Label : String
deriving DecidableEq, Repr

/-- The struct `ServiceInstance`; the embedded `ServiceInstanceFields` is the parent
structure, so that `inst.Guid` is the promoted field as in Go. -/
structure ServiceInstance extends ServiceInstanceFields where
  ServiceBindings : List ServiceBindingFields
  ServiceKeys : List ServiceKeyFields
  ServicePlan : ServicePlanFields
  ServiceOffering : ServiceOfferingFields
deriving DecidableEq, Repr

/-- `func (inst ServiceInstance) IsUserProvided() bool`. -/
def ServiceInstance.IsUserProvided (inst : ServiceInstance) : Bool :=
  inst.ServicePlan.Guid == ""

/-! ## Collaborators of `cf/commands/service/update_service.go` -/

/-- One call on a collaborator, with the answer it returned where the handler
uses one. -/
inductive Event where
  /-- `serviceRepo.FindInstanceByName(name)` -/
  | FindInstanceByName (name : String) (res : Except GoError ServiceInstance)
  /-- `serviceRepo.UpdateServiceInstance(instanceGuid, planGuid, params)` -/
  | UpdateServiceInstance (instanceGuid planGuid : String) (params : ParamsMap)
      (res : Option GoError)
  /-- `planBuilder.GetPlansForServiceForOrg(serviceGuid, orgName)` -/
  | GetPlansForServiceForOrg (serviceGuid orgName : String)
      (res : Except GoError (List ServicePlanFields))
  /-- `json.ParseJsonFromFileOrString(params)`, answering a map and an error -/
  | ParseJsonFromFileOrString (params : String) (res : ParamsMap × Option GoError)
  /-- `config.Username()` -/
  | Username
  /-- `config.IsMinApiVersion(version)` -/
  | IsMinApiVersion (version : String)
  /-- `config.ApiVersion()` -/
  | ApiVersion
  /-- `config.OrganizationFields()` -/
  | OrganizationFields
  /-- `ui.Say(message)` -/
  | Say (message : String)
  /-- `ui.Ok()` -/
  | Ok
  /-- `ui.Failed(message)` -/
  | Failed (message : String)
  /-- `ui.FailWithUsage(c)` -/
  | FailWithUsage
deriving DecidableEq, Repr

/-- The calls made so far, oldest first. -/
abbrev Trace := List Event

/-- The `*cli.Context` of an invocation: `c.Args()` and `c.String(name)`. -/
structure Context where
  Args : List String
  /-- `c.String(name)`: the value of a string flag, `""` when it is not set -/
  Flag : String → String

/-- The part of `models.OrganizationFields` the handler reads. -/
structure OrganizationFields where
  Name : String
deriving DecidableEq, Repr

/-- The collaborators of the command. The repository, the plan builder and the JSON
reader answer as functions of the calls made so far; the configuration reader is a
read-only view whose answers are fixed during an invocation; the message functions
are pure. -/
structure Env where
  /-- `api.ServiceRepository.FindInstanceByName` -/
  FindInstanceByName : Trace → String → Except GoError ServiceInstance
  /-- `api.ServiceRepository.UpdateServiceInstance`; `none` is the nil error -/
  UpdateServiceInstance : Trace → String → String → ParamsMap → Option GoError
  /-- `plan_builder.PlanBuilder.GetPlansForServiceForOrg` -/
  GetPlansForServiceForOrg : Trace → String → String → Except GoError (List ServicePlanFields)
  /-- `json.ParseJsonFromFileOrString`: Go returns the map and the error together -/
  ParseJsonFromFileOrString : Trace → String → ParamsMap × Option GoError
  /-- `core_config.Reader.Username` -/
  Username : String
  /-- `core_config.Reader.IsMinApiVersion` -/
  IsMinApiVersion : String → Bool
  /-- `core_config.Reader.ApiVersion` -/
  ApiVersion : String
  /-- `core_config.Reader.OrganizationFields` -/
  OrganizationFields : OrganizationFields
  /-- `i18n.T`: a message from a template and its named arguments, in source order -/
  T : String → List (String × String) → String
  /-- `terminal.EntityNameColor` -/
  EntityNameColor : String → String
  /-- `terminal.CommandColor` -/
  CommandColor : String → String
  /-- `strings.Title` -/
  Title : String → String

/-- The `requirements.Factory` of `GetRequirements`, over any type of requirements. -/
structure Factory (R : Type) where
  NewLoginRequirement : R
  NewTargetedSpaceRequirement : R

/-! ## Message templates, as written in the source -/

/-- Template: `Invalid configuration provided for -c flag. Please provide a valid JSON
object or path to a file containing a valid JSON object.` -/
def msgInvalidConfiguration : String :=
  "Invalid configuration provided for -c flag. Please provide a valid JSON object or path to a file containing a valid JSON object."

/-- Template: `Updating service instance {{.ServiceName}} as {{.UserName}}...` -/
def msgUpdating : String :=
  "Updating service instance \x7b\x7b.ServiceName\x7d\x7d as \x7b\x7b.UserName\x7d\x7d..."

/-- Template: `Updating a plan requires API v{{.RequiredCCAPIVersion}} or newer. Your
current target is v{{.CurrentCCAPIVersion}}.` -/
def msgVersionMismatch : String :=
  "Updating a plan requires API v\x7b\x7b.RequiredCCAPIVersion\x7d\x7d or newer. Your current target is v\x7b\x7b.CurrentCCAPIVersion\x7d\x7d."

/-- Template: `No changes were made` -/
def msgNoChanges : String :=
  "No changes were made"

/-- Template: `Plan does not exist for the {{.ServiceName}} service` -/
def msgPlanDoesNotExist : String :=
  "Plan does not exist for the \x7b\x7b.ServiceName\x7d\x7d service"

/-- Template: `{{.State}} in progress. Use '{{.ServicesCommand}}' or
'{{.ServiceCommand}}' to check operation status.` -/
def msgInProgress : String :=
  "\x7b\x7b.State\x7d\x7d in progress. Use \x27\x7b\x7b.ServicesCommand\x7d\x7d\x27 or \x27\x7b\x7b.ServiceCommand\x7d\x7d\x27 to check operation status."

/-! ## `cf/commands/service/update_service.go` -/

/-- Modelled from the spec: the implementation of `terminal.UI.Failed` is in package
`terminal`, outside the two embedded files. The spec says that every failure
"terminates with a non-zero-style failure path and a descriptive message" and that
all failures are "terminal for the command invocation", "surfaced verbatim to the
user via formatted message, then process termination". The call is recorded with its
message and the invocation ends there: what this function returns is the whole trace
of the invocation. -/
def UI.Failed (message : String) (t : Trace) : Trace :=
  t ++ [Event.Failed message]

/-- Modelled from the spec: the implementation of `terminal.UI.FailWithUsage` is in
package `terminal`, outside the two embedded files. It is the failure path of the
validation of the command line, and by the spec every failure path ends the command
invocation; `Run` reads `c.Args()[0]` unguarded on that ground. The call is recorded and
the invocation ends there. -/
def UI.FailWithUsage (t : Trace) : Trace :=
  t ++ [Event.FailWithUsage]

/-- `func (cmd *UpdateService) GetRequirements`: what it returns, with the extended
trace. With a number of positional arguments other than 1 the command ends in
`ui.FailWithUsage` and nothing is returned (`none`); otherwise the requirements and
the nil error are. -/
def GetRequirements {R : Type} (requirementsFactory : Factory R) (c : Context) (t : Trace) :
    Option (List R × Option GoError) × Trace :=
  if c.Args.length ≠ 1 then
    (none, UI.FailWithUsage t)
  else
    (some ([requirementsFactory.NewLoginRequirement,
      requirementsFactory.NewTargetedSpaceRequirement], none), t)

/-- The loop `for _, plan := range plans` of `updateServiceWithPlan`, with the
statements that follow it: the first plan whose name matches is sent to
`UpdateServiceInstance` and the loop is left; when the plans are exhausted the
"Plan does not exist" error is built. -/
def rangePlans (env : Env) (serviceInstance : ServiceInstance) (planName : String)
    (paramsMap : ParamsMap) : List ServicePlanFields → Trace → Option GoError × Trace
  | [], t =>
    (some ⟨env.T msgPlanDoesNotExist [("ServiceName", serviceInstance.ServiceOffering.Label)]⟩, t)
  | plan :: rest, t =>
    if plan.Name = planName then
      let err := env.UpdateServiceInstance t serviceInstance.Guid plan.Guid paramsMap
      (err, t ++ [Event.UpdateServiceInstance serviceInstance.Guid plan.Guid paramsMap err])
    else
      rangePlans env serviceInstance planName paramsMap rest t

/-- `func (cmd *UpdateService) updateServiceWithPlan`: the returned error and the
extended trace. -/
def updateServiceWithPlan (env : Env) (serviceInstance : ServiceInstance) (planName : String)
    (paramsMap : ParamsMap) (t : Trace) : Option GoError × Trace :=
  let t := t ++ [Event.OrganizationFields]
  let listed := env.GetPlansForServiceForOrg t serviceInstance.ServiceOffering.Guid
    env.OrganizationFields.Name
  let t := t ++ [Event.GetPlansForServiceForOrg serviceInstance.ServiceOffering.Guid
    env.OrganizationFields.Name listed]
  match listed with
  | .error err => (some err, t)
  | .ok plans => rangePlans env serviceInstance planName paramsMap plans t

/-- `func printSuccessMessageForServiceInstance`: the returned error and the extended
trace. `fmt.Sprintf("cf service %s", name)` is the concatenation. -/
def printSuccessMessageForServiceInstance (env : Env) (serviceInstanceName : String)
    (t : Trace) : Option GoError × Trace :=
  let found := env.FindInstanceByName t serviceInstanceName
  let t := t ++ [Event.FindInstanceByName serviceInstanceName found]
  match found with
  | .error apiErr => (some apiErr, t)
  | .ok inst =>
    if inst.LastOperation.State = "in progress" then
      (none, t ++ [Event.Ok, Event.Say "",
        Event.Say (env.T msgInProgress
          [("State", env.Title inst.LastOperation.«Type»),
           ("ServicesCommand", env.CommandColor "cf services"),
           ("ServiceCommand", env.CommandColor ("cf service " ++ serviceInstanceName))])])
    else
      (none, t ++ [Event.Ok])

/-- `func (cmd *UpdateService) Run`: the trace of the invocation when it has ended, by
a return of `Run` or in a call of `ui.Failed`; `none` when the read of `c.Args()[0]` is
out of range. -/
def Run (env : Env) (c : Context) (t : Trace) : Option Trace :=
  match c.Args with
  | [] => none
  | serviceInstanceName :: _ =>
    let found := env.FindInstanceByName t serviceInstanceName
    let t := t ++ [Event.FindInstanceByName serviceInstanceName found]
    match found with
    | .error err => some (UI.Failed err.Error t)
    | .ok serviceInstance =>
      let planName := c.Flag "p"
      let params := c.Flag "c"
      let parsed := env.ParseJsonFromFileOrString t params
      let t := t ++ [Event.ParseJsonFromFileOrString params parsed]
      let paramsMap := parsed.1
      match parsed.2 with
      | some _ => some (UI.Failed (env.T msgInvalidConfiguration []) t)
      | none =>
        if planName ≠ "" then
          let t := t ++ [Event.Username,
            Event.Say (env.T msgUpdating
              [("ServiceName", env.EntityNameColor serviceInstanceName),
               ("UserName", env.EntityNameColor env.Username)])]
          let t := t ++ [Event.IsMinApiVersion "2.16.0"]
          if env.IsMinApiVersion "2.16.0" then
            match updateServiceWithPlan env serviceInstance planName paramsMap t with
            | (none, t) =>
              match printSuccessMessageForServiceInstance env serviceInstanceName t with
              | (some err, t) => some (UI.Failed err.Error t)
              | (none, t) => some t
            | (some err, t) => some (UI.Failed err.Error t)
          else
            let t := t ++ [Event.ApiVersion]
            some (UI.Failed (env.T msgVersionMismatch
              [("RequiredCCAPIVersion", "2.16.0"),
               ("CurrentCCAPIVersion", env.ApiVersion)]) t)
        else
          some (t ++ [Event.Ok, Event.Say (env.T msgNoChanges [])])

/-! ## Observations on traces -/

/-- A plan-listing call. -/
def Event.isPlanListing : Event → Bool
  | .GetPlansForServiceForOrg _ _ _ => true
  | _ => false

/-- An update call. -/
def Event.isUpdate : Event → Bool
  | .UpdateServiceInstance _ _ _ _ => true
  | _ => false

/-- A lookup of an instance by name. -/
def Event.isFind : Event → Bool
  | .FindInstanceByName _ _ => true
  | _ => false

/-- A read of the API version, through `IsMinApiVersion` or `ApiVersion`. -/
def Event.isApiVersionRead : Event → Bool
  | .IsMinApiVersion _ => true
  | .ApiVersion => true
  | _ => false

/-- A call on the user interface. -/
def Event.isUI : Event → Bool
  | .Say _ => true
  | .Ok => true
  | .Failed _ => true
  | .FailWithUsage => true
  | _ => false

/-- The calls on the user interface, in order. -/
def uiEffects (tr : Trace) : Trace := tr.filter Event.isUI

/-- The calls that follow the first update call. -/
def afterUpdate (tr : Trace) : Trace := (tr.dropWhile (fun e => !e.isUpdate)).tail

/-! ## A concrete environment -/

/-- A service instance bound to the plan `silver` of the offering `postgres`. -/
def sampleInstance : ServiceInstance where
  Guid := "instance-guid"
  Name := "mydb"
  LastOperation := ⟨"create", "succeeded", ""⟩
  SysLogDrainUrl := ""
  ApplicationNames := []
  Params := []
  DashboardUrl := ""
  ServiceBindings := []
  ServiceKeys := []
  ServicePlan := ⟨"silver-guid", "silver", "postgres-guid", []⟩
  ServiceOffering := ⟨"postgres-guid", "postgres"⟩

/-- The same instance while its update is running. -/
def sampleInstanceUpdating : ServiceInstance :=
  { sampleInstance with LastOperation := ⟨"update", "in progress", ""⟩ }

/-- Three plans, two of which are named `gold`. -/
def samplePlans : List ServicePlanFields :=
  [⟨"silver-guid", "silver", "postgres-guid", []⟩,
   ⟨"gold-guid-1", "gold", "postgres-guid", []⟩,
   ⟨"gold-guid-2", "gold", "postgres-guid", []⟩]

/-- An environment in which every call succeeds: the instance is found, the JSON
reader accepts `{}` and the empty string and rejects everything else, the target
API is recent enough, and a lookup made after an update finds the update running. -/
def sampleEnv : Env where
  FindInstanceByName := fun t _ =>
    if t.any Event.isUpdate then .ok sampleInstanceUpdating else .ok sampleInstance
  UpdateServiceInstance := fun _ _ _ _ => none
  GetPlansForServiceForOrg := fun _ _ _ => .ok samplePlans
  ParseJsonFromFileOrString := fun _ s =>
    if s = "" ∨ s = "\x7b\x7d" then ([], none) else ([], some ⟨"invalid character"⟩)
  Username := "admin"
  IsMinApiVersion := fun _ => true
  ApiVersion := "2.16.0"
  OrganizationFields := ⟨"my-org"⟩
  T := fun template args => template ++ String.join (args.map (fun a => "|" ++ a.1 ++ "=" ++ a.2))
  EntityNameColor := fun s => s
  CommandColor := fun s => s
  Title := fun s => s.capitalize

/-- The invocation `cf update-service mydb -p plan -c params`. -/
def sampleContext (plan params : String) : Context where
  Args := ["mydb"]
  Flag := fun name => if name = "p" then plan else if name = "c" then params else ""


/-- The same instance with a last-operation state that differs from `in progress`
by its capitals only. -/
def sampleInstanceCapitals : ServiceInstance :=
  { sampleInstance with LastOperation := ⟨"update", "In Progress", ""⟩ }

/-- An environment in which every lookup of the instance fails. -/
def envLookupFails : Env :=
  { sampleEnv with
    FindInstanceByName := fun _ _ => .error ⟨"Service instance mydb not found"⟩ }

/-- An environment whose target API is older than 2.16.0. -/
def envOldApi : Env :=
  { sampleEnv with IsMinApiVersion := fun _ => false, ApiVersion := "2.15.0" }

/-- An environment in which the plan listing fails. -/
def envListingFails : Env :=
  { sampleEnv with GetPlansForServiceForOrg := fun _ _ _ => .error ⟨"listing failed"⟩ }

/-- An environment in which the update call fails. -/
def envUpdateFails : Env :=
  { sampleEnv with UpdateServiceInstance := fun _ _ _ _ => some ⟨"update failed"⟩ }

/-- An environment in which the lookup made after the update fails. -/
def envRefetchFails : Env :=
  { sampleEnv with
    FindInstanceByName := fun t _ =>
      if t.any Event.isUpdate then .error ⟨"lookup failed"⟩ else .ok sampleInstance }

/-- An environment in which the lookup made after the update finds the state
`In Progress`. -/
def envCapitals : Env :=
  { sampleEnv with
    FindInstanceByName := fun t _ =>
      if t.any Event.isUpdate then .ok sampleInstanceCapitals else .ok sampleInstance }


/-! ## The plan-change path of `Run` -/

/-- The calls `Run` makes from the lookup to the version check when the lookup and
the parse succeeded and a plan name is given: lookup, parse, the user name, the
progress line, the version check. -/
def planPathHead (env : Env) (name : String) (inst : ServiceInstance) (params : String)
    (paramsMap : ParamsMap) : Trace :=
  [Event.FindInstanceByName name (.ok inst),
   Event.ParseJsonFromFileOrString params (paramsMap, none),
   Event.Username,
   Event.Say (env.T msgUpdating
     [("ServiceName", env.EntityNameColor name),
      ("UserName", env.EntityNameColor env.Username)]),
   Event.IsMinApiVersion "2.16.0"]

/-- The calls `Run` makes after a successful version check, one constructor for each
way through `updateServiceWithPlan`, the `switch` on its error and
`printSuccessMessageForServiceInstance`. -/
inductive PlanPathTail (env : Env) (inst : ServiceInstance) (planName : String)
    (paramsMap : ParamsMap) (name : String) : Trace → Prop where
  | listingFailed (err : GoError) :
    PlanPathTail env inst planName paramsMap name
      [Event.OrganizationFields,
       Event.GetPlansForServiceForOrg inst.ServiceOffering.Guid env.OrganizationFields.Name
         (.error err),
       Event.Failed err.Error]
  | noSuchPlan (plans : List ServicePlanFields) (hno : ∀ p ∈ plans, p.Name ≠ planName) :
    PlanPathTail env inst planName paramsMap name
      [Event.OrganizationFields,
       Event.GetPlansForServiceForOrg inst.ServiceOffering.Guid env.OrganizationFields.Name
         (.ok plans),
       Event.Failed (env.T msgPlanDoesNotExist [("ServiceName", inst.ServiceOffering.Label)])]
  | updateFailed (plans : List ServicePlanFields) (plan : ServicePlanFields) (err : GoError)
      (hmem : plan ∈ plans) (hname : plan.Name = planName) :
    PlanPathTail env inst planName paramsMap name
      [Event.OrganizationFields,
       Event.GetPlansForServiceForOrg inst.ServiceOffering.Guid env.OrganizationFields.Name
         (.ok plans),
       Event.UpdateServiceInstance inst.Guid plan.Guid paramsMap (some err),
       Event.Failed err.Error]
  | refetchFailed (plans : List ServicePlanFields) (plan : ServicePlanFields) (err : GoError)
      (hmem : plan ∈ plans) (hname : plan.Name = planName) :
    PlanPathTail env inst planName paramsMap name
      [Event.OrganizationFields,
       Event.GetPlansForServiceForOrg inst.ServiceOffering.Guid env.OrganizationFields.Name
         (.ok plans),
       Event.UpdateServiceInstance inst.Guid plan.Guid paramsMap none,
       Event.FindInstanceByName name (.error err),
       Event.Failed err.Error]
  | inProgress (plans : List ServicePlanFields) (plan : ServicePlanFields)
      (inst₂ : ServiceInstance) (hmem : plan ∈ plans) (hname : plan.Name = planName)
      (hstate : inst₂.LastOperation.State = "in progress") :
    PlanPathTail env inst planName paramsMap name
      [Event.OrganizationFields,
       Event.GetPlansForServiceForOrg inst.ServiceOffering.Guid env.OrganizationFields.Name
         (.ok plans),
       Event.UpdateServiceInstance inst.Guid plan.Guid paramsMap none,
       Event.FindInstanceByName name (.ok inst₂),
       Event.Ok,
       Event.Say "",
       Event.Say (env.T msgInProgress
         [("State", env.Title inst₂.LastOperation.«Type»),
          ("ServicesCommand", env.CommandColor "cf services"),
          ("ServiceCommand", env.CommandColor ("cf service " ++ name))])]
  | completed (plans : List ServicePlanFields) (plan : ServicePlanFields)
      (inst₂ : ServiceInstance) (hmem : plan ∈ plans) (hname : plan.Name = planName)
      (hstate : inst₂.LastOperation.State ≠ "in progress") :
    PlanPathTail env inst planName paramsMap name
      [Event.OrganizationFields,
       Event.GetPlansForServiceForOrg inst.ServiceOffering.Guid env.OrganizationFields.Name
         (.ok plans),
       Event.UpdateServiceInstance inst.Guid plan.Guid paramsMap none,
       Event.FindInstanceByName name (.ok inst₂),
       Event.Ok]


/-! ## Lemmas on the plan loop -/

/-- A plan list in which the requested name occurs splits at its first occurrence. -/
theorem exists_first_match (planName : String) (plans : List ServicePlanFields)
    (hocc : ∃ p ∈ plans, p.Name = planName) :
    ∃ pre plan post, plans = pre ++ plan :: post ∧ (∀ p ∈ pre, p.Name ≠ planName) ∧
      plan.Name = planName := by
  induction plans with
  | nil => simp at hocc
  | cons q qs ih =>
    by_cases hq : q.Name = planName
    · exact ⟨[], q, qs, rfl, by simp, hq⟩
    · have hocc' : ∃ p ∈ qs, p.Name = planName := by
        obtain ⟨p, hp, hpn⟩ := hocc
        rcases List.mem_cons.mp hp with rfl | hp'
        · exact absurd hpn hq
        · exact ⟨p, hp', hpn⟩
      obtain ⟨pre, plan, post, hsplit, hpre, hplan⟩ := ih hocc'
      refine ⟨q :: pre, plan, post, by simp [hsplit], ?_, hplan⟩
      intro p hp
      rcases List.mem_cons.mp hp with rfl | hp'
      · exact hq
      · exact hpre p hp'

/-- The loop stops at the first plan whose name matches and sends that plan. -/
theorem rangePlans_first (env : Env) (serviceInstance : ServiceInstance) (planName : String)
    (paramsMap : ParamsMap) (pre : List ServicePlanFields) (plan : ServicePlanFields)
    (post : List ServicePlanFields) (t : Trace)
    (hpre : ∀ p ∈ pre, p.Name ≠ planName) (hplan : plan.Name = planName) :
    rangePlans env serviceInstance planName paramsMap (pre ++ plan :: post) t =
      (env.UpdateServiceInstance t serviceInstance.Guid plan.Guid paramsMap,
       t ++ [Event.UpdateServiceInstance serviceInstance.Guid plan.Guid paramsMap
          (env.UpdateServiceInstance t serviceInstance.Guid plan.Guid paramsMap)]) := by
  induction pre with
  | nil => simp [rangePlans, hplan]
  | cons q qs ih =>
    have hq : q.Name ≠ planName := hpre q (List.mem_cons_self q qs)
    have hqs : ∀ p ∈ qs, p.Name ≠ planName := fun p hp => hpre p (List.mem_cons_of_mem q hp)
    simp [rangePlans, hq, ih hqs]

/-- The loop over plans none of which matches makes no call and builds the error. -/
theorem rangePlans_none (env : Env) (serviceInstance : ServiceInstance) (planName : String)
    (paramsMap : ParamsMap) (plans : List ServicePlanFields) (t : Trace)
    (hno : ∀ p ∈ plans, p.Name ≠ planName) :
    rangePlans env serviceInstance planName paramsMap plans t =
      (some ⟨env.T msgPlanDoesNotExist
        [("ServiceName", serviceInstance.ServiceOffering.Label)]⟩, t) := by
  induction plans with
  | nil => simp [rangePlans]
  | cons q qs ih =>
    have hq : q.Name ≠ planName := hno q (List.mem_cons_self q qs)
    have hqs : ∀ p ∈ qs, p.Name ≠ planName := fun p hp => hno p (List.mem_cons_of_mem q hp)
    simp [rangePlans, hq, ih hqs]

/-- The two outcomes of the loop. -/
theorem rangePlans_cases (env : Env) (serviceInstance : ServiceInstance) (planName : String)
    (paramsMap : ParamsMap) (plans : List ServicePlanFields) (t : Trace) :
    ((∀ p ∈ plans, p.Name ≠ planName) ∧
      rangePlans env serviceInstance planName paramsMap plans t =
        (some ⟨env.T msgPlanDoesNotExist
          [("ServiceName", serviceInstance.ServiceOffering.Label)]⟩, t)) ∨
    (∃ plan ∈ plans, plan.Name = planName ∧
      rangePlans env serviceInstance planName paramsMap plans t =
        (env.UpdateServiceInstance t serviceInstance.Guid plan.Guid paramsMap,
         t ++ [Event.UpdateServiceInstance serviceInstance.Guid plan.Guid paramsMap
            (env.UpdateServiceInstance t serviceInstance.Guid plan.Guid paramsMap)])) := by
  by_cases hocc : ∃ p ∈ plans, p.Name = planName
  · obtain ⟨pre, plan, post, hsplit, hpre, hplan⟩ := exists_first_match planName plans hocc
    right
    refine ⟨plan, by simp [hsplit], hplan, ?_⟩
    rw [hsplit]
    exact rangePlans_first env serviceInstance planName paramsMap pre plan post t hpre hplan
  · left
    have hno : ∀ p ∈ plans, p.Name ≠ planName := fun p hp hpn => hocc ⟨p, hp, hpn⟩
    exact ⟨hno, rangePlans_none env serviceInstance planName paramsMap plans t hno⟩

/-- The three outcomes of `updateServiceWithPlan`: the listing fails, no plan matches,
or a plan matches and is sent. -/
theorem updateServiceWithPlan_cases (env : Env) (serviceInstance : ServiceInstance)
    (planName : String) (paramsMap : ParamsMap) (s : Trace) :
    (∃ err, updateServiceWithPlan env serviceInstance planName paramsMap s =
        (some err, s ++ [Event.OrganizationFields,
          Event.GetPlansForServiceForOrg serviceInstance.ServiceOffering.Guid
            env.OrganizationFields.Name (.error err)])) ∨
    (∃ plans, (∀ p ∈ plans, p.Name ≠ planName) ∧
      updateServiceWithPlan env serviceInstance planName paramsMap s =
        (some ⟨env.T msgPlanDoesNotExist
            [("ServiceName", serviceInstance.ServiceOffering.Label)]⟩,
          s ++ [Event.OrganizationFields,
            Event.GetPlansForServiceForOrg serviceInstance.ServiceOffering.Guid
              env.OrganizationFields.Name (.ok plans)])) ∨
    (∃ plans plan res, plan ∈ plans ∧ plan.Name = planName ∧
      updateServiceWithPlan env serviceInstance planName paramsMap s =
        (res, s ++ [Event.OrganizationFields,
          Event.GetPlansForServiceForOrg serviceInstance.ServiceOffering.Guid
            env.OrganizationFields.Name (.ok plans),
          Event.UpdateServiceInstance serviceInstance.Guid plan.Guid paramsMap res])) := by
  cases hl : env.GetPlansForServiceForOrg (s ++ [Event.OrganizationFields])
      serviceInstance.ServiceOffering.Guid env.OrganizationFields.Name with
  | error err => left; exact ⟨err, by simp [updateServiceWithPlan, hl]⟩
  | ok plans =>
    right
    rcases rangePlans_cases env serviceInstance planName paramsMap plans
      (s ++ [Event.OrganizationFields] ++
        [Event.GetPlansForServiceForOrg serviceInstance.ServiceOffering.Guid
          env.OrganizationFields.Name (.ok plans)]) with ⟨hno, h⟩ | ⟨plan, hmem, hname, h⟩
    · left; exact ⟨plans, hno, by simpa [updateServiceWithPlan, hl] using h⟩
    · right; exact ⟨plans, plan, _, hmem, hname, by simpa [updateServiceWithPlan, hl] using h⟩

/-- The three outcomes of `printSuccessMessageForServiceInstance`: the lookup fails,
the instance is found in progress, or it is found in another state. -/
theorem printSuccessMessageForServiceInstance_cases (env : Env) (name : String) (s : Trace) :
    (∃ err, printSuccessMessageForServiceInstance env name s =
        (some err, s ++ [Event.FindInstanceByName name (.error err)])) ∨
    (∃ inst, inst.LastOperation.State = "in progress" ∧
      printSuccessMessageForServiceInstance env name s =
        (none, s ++ [Event.FindInstanceByName name (.ok inst), Event.Ok, Event.Say "",
          Event.Say (env.T msgInProgress
            [("State", env.Title inst.LastOperation.«Type»),
             ("ServicesCommand", env.CommandColor "cf services"),
             ("ServiceCommand", env.CommandColor ("cf service " ++ name))])])) ∨
    (∃ inst, inst.LastOperation.State ≠ "in progress" ∧
      printSuccessMessageForServiceInstance env name s =
        (none, s ++ [Event.FindInstanceByName name (.ok inst), Event.Ok])) := by
  cases hf : env.FindInstanceByName s name with
  | error err => left; exact ⟨err, by simp [printSuccessMessageForServiceInstance, hf]⟩
  | ok inst =>
    right
    by_cases hs : inst.LastOperation.State = "in progress"
    · left; exact ⟨inst, hs, by simp [printSuccessMessageForServiceInstance, hf, hs]⟩
    · right; exact ⟨inst, hs, by simp [printSuccessMessageForServiceInstance, hf, hs]⟩

/-- Lines 105 to 114 of `Run`, from any trace: the calls added are one of the six
tails. -/
theorem planPath_tail (env : Env) (inst : ServiceInstance) (planName : String)
    (paramsMap : ParamsMap) (name : String) (s : Trace) :
    ∃ tail, PlanPathTail env inst planName paramsMap name tail ∧
      (match updateServiceWithPlan env inst planName paramsMap s with
        | (none, t) =>
          match printSuccessMessageForServiceInstance env name t with
          | (some err, t) => some (UI.Failed err.Error t)
          | (none, t) => some t
        | (some err, t) => some (UI.Failed err.Error t)) = some (s ++ tail) := by
  rcases updateServiceWithPlan_cases env inst planName paramsMap s with
    ⟨err, hU⟩ | ⟨plans, hno, hU⟩ | ⟨plans, plan, res, hmem, hname, hU⟩
  · exact ⟨_, .listingFailed err, by simp [hU, UI.Failed]⟩
  · exact ⟨_, .noSuchPlan plans hno, by simp [hU, UI.Failed]⟩
  · cases res with
    | some err => exact ⟨_, .updateFailed plans plan err hmem hname, by simp [hU, UI.Failed]⟩
    | none =>
      rcases printSuccessMessageForServiceInstance_cases env name
        (s ++ [Event.OrganizationFields,
          Event.GetPlansForServiceForOrg inst.ServiceOffering.Guid
            env.OrganizationFields.Name (.ok plans),
          Event.UpdateServiceInstance inst.Guid plan.Guid paramsMap none]) with
        ⟨err, hP⟩ | ⟨inst₂, hstate, hP⟩ | ⟨inst₂, hstate, hP⟩
      · exact ⟨_, .refetchFailed plans plan err hmem hname, by simp [hU, hP, UI.Failed]⟩
      · exact ⟨_, .inProgress plans plan inst₂ hmem hname hstate, by simp [hU, hP, UI.Failed]⟩
      · exact ⟨_, .completed plans plan inst₂ hmem hname hstate, by simp [hU, hP, UI.Failed]⟩

/-- The trace of `Run` when the lookup and the parse succeed, a plan name is given and
the target API is recent enough: the calls up to the version check, then one of the
six tails. -/
theorem Run_plan_path (env : Env) (c : Context) (t : Trace) (name : String)
    (rest : List String) (inst : ServiceInstance) (pm : ParamsMap)
    (hargs : c.Args = name :: rest)
    (hfind : env.FindInstanceByName t name = .ok inst)
    (hparse : env.ParseJsonFromFileOrString (t ++ [Event.FindInstanceByName name (.ok inst)])
      (c.Flag "c") = (pm, none))
    (hplan : c.Flag "p" ≠ "") (hmin : env.IsMinApiVersion "2.16.0" = true) :
    ∃ tail, PlanPathTail env inst (c.Flag "p") pm name tail ∧
      Run env c t = some (t ++ (planPathHead env name inst (c.Flag "c") pm ++ tail)) := by
  obtain ⟨tail, htail, h⟩ := planPath_tail env inst (c.Flag "p") pm name
    (t ++ planPathHead env name inst (c.Flag "c") pm)
  refine ⟨tail, htail, ?_⟩
  rw [← List.append_assoc, ← h]
  simp [Run, hargs, hfind, hparse, hplan, hmin, planPathHead]

/-- The trace of `Run` when the initial lookup fails: the lookup and the failure. -/
theorem Run_lookup_error_trace (env : Env) (c : Context) (t : Trace) (name : String)
    (rest : List String) (err : GoError) (hargs : c.Args = name :: rest)
    (hfind : env.FindInstanceByName t name = .error err) :
    Run env c t = some (t ++ [Event.FindInstanceByName name (.error err),
      Event.Failed err.Error]) := by
  simp [Run, hargs, hfind, UI.Failed]

/-- The trace of `Run` when the lookup succeeds and the parse answers an error: the
lookup, the parse and the invalid-configuration failure. -/
theorem Run_parse_error_trace (env : Env) (c : Context) (t : Trace) (name : String)
    (rest : List String) (inst : ServiceInstance) (pm : ParamsMap) (perr : GoError)
    (hargs : c.Args = name :: rest)
    (hfind : env.FindInstanceByName t name = .ok inst)
    (hparse : env.ParseJsonFromFileOrString (t ++ [Event.FindInstanceByName name (.ok inst)])
      (c.Flag "c") = (pm, some perr)) :
    Run env c t = some (t ++
      [Event.FindInstanceByName name (.ok inst),
       Event.ParseJsonFromFileOrString (c.Flag "c") (pm, some perr),
       Event.Failed (env.T msgInvalidConfiguration [])]) := by
  simp [Run, hargs, hfind, hparse, UI.Failed]

/-- The trace of `Run` when the lookup and the parse succeed and no plan name is
given: lookup, parse, `Ok` and the no-changes line. -/
theorem Run_no_plan_trace (env : Env) (c : Context) (t : Trace) (name : String)
    (rest : List String) (inst : ServiceInstance) (pm : ParamsMap)
    (hargs : c.Args = name :: rest)
    (hfind : env.FindInstanceByName t name = .ok inst)
    (hparse : env.ParseJsonFromFileOrString (t ++ [Event.FindInstanceByName name (.ok inst)])
      (c.Flag "c") = (pm, none))
    (hplan : c.Flag "p" = "") :
    Run env c t = some (t ++
      [Event.FindInstanceByName name (.ok inst),
       Event.ParseJsonFromFileOrString (c.Flag "c") (pm, none),
       Event.Ok, Event.Say (env.T msgNoChanges [])]) := by
  simp [Run, hargs, hfind, hparse, hplan]

/-- The trace of `Run` when the lookup and the parse succeed, a plan name is given and
the target API is too old: the calls up to the version check, the read of the API
version and the version-mismatch failure. -/
theorem Run_version_mismatch_trace (env : Env) (c : Context) (t : Trace) (name : String)
    (rest : List String) (inst : ServiceInstance) (pm : ParamsMap)
    (hargs : c.Args = name :: rest)
    (hfind : env.FindInstanceByName t name = .ok inst)
    (hparse : env.ParseJsonFromFileOrString (t ++ [Event.FindInstanceByName name (.ok inst)])
      (c.Flag "c") = (pm, none))
    (hplan : c.Flag "p" ≠ "") (hmin : env.IsMinApiVersion "2.16.0" = false) :
    Run env c t = some (t ++
      (planPathHead env name inst (c.Flag "c") pm ++
       [Event.ApiVersion,
        Event.Failed (env.T msgVersionMismatch
          [("RequiredCCAPIVersion", "2.16.0"),
           ("CurrentCCAPIVersion", env.ApiVersion)])])) := by
  simp [Run, hargs, hfind, hparse, hplan, hmin, planPathHead, UI.Failed]

/-- With a first positional argument, `Run` runs to its end. -/
theorem Run_isSome (env : Env) (c : Context) (t : Trace) (name : String) (rest : List String)
    (hargs : c.Args = name :: rest) : (Run env c t).isSome = true := by
  cases hfind : env.FindInstanceByName t name with
  | error e => simp [Run_lookup_error_trace env c t name rest e hargs hfind]
  | ok inst =>
    rcases hp : env.ParseJsonFromFileOrString
      (t ++ [Event.FindInstanceByName name (.ok inst)]) (c.Flag "c") with ⟨pm, _ | perr⟩
    · by_cases hplan : c.Flag "p" = ""
      · simp [Run_no_plan_trace env c t name rest inst pm hargs hfind hp hplan]
      · cases hmin : env.IsMinApiVersion "2.16.0" with
        | false =>
          simp [Run_version_mismatch_trace env c t name rest inst pm hargs hfind hp hplan hmin]
        | true =>
          obtain ⟨tail, -, hrun⟩ :=
            Run_plan_path env c t name rest inst pm hargs hfind hp hplan hmin
          simp [hrun]
    · simp [Run_parse_error_trace env c t name rest inst pm perr hargs hfind hp]

/-! ## The claims -/

/-- Claim C1: when the plan listing succeeds and the requested plan name occurs in the
list, `updateServiceWithPlan` adds to the trace the read of the organization, the
listing and exactly one update call; that call carries the instance's `Guid`, the
`Guid` of the first plan in listing order whose `Name` is the requested one (whatever
follows it in the list) and the parameter map it was given; and the error it returns
is the answer of that update call. -/
theorem updateServiceWithPlan_first_match (env : Env) (serviceInstance : ServiceInstance)
    (planName : String) (paramsMap : ParamsMap) (t : Trace) (plans : List ServicePlanFields)
    (hlist : env.GetPlansForServiceForOrg (t ++ [Event.OrganizationFields])
      serviceInstance.ServiceOffering.Guid env.OrganizationFields.Name = .ok plans)
    (hocc : ∃ p ∈ plans, p.Name = planName) :
    ∃ pre plan post, plans = pre ++ plan :: post ∧ (∀ p ∈ pre, p.Name ≠ planName) ∧
      plan.Name = planName ∧
      ∃ res, res = env.UpdateServiceInstance
          (t ++ [Event.OrganizationFields,
            Event.GetPlansForServiceForOrg serviceInstance.ServiceOffering.Guid
              env.OrganizationFields.Name (.ok plans)])
          serviceInstance.Guid plan.Guid paramsMap ∧
        updateServiceWithPlan env serviceInstance planName paramsMap t =
          (res, t ++ [Event.OrganizationFields,
            Event.GetPlansForServiceForOrg serviceInstance.ServiceOffering.Guid
              env.OrganizationFields.Name (.ok plans),
            Event.UpdateServiceInstance serviceInstance.Guid plan.Guid paramsMap res]) := by
  obtain ⟨pre, plan, post, hsplit, hpre, hplan⟩ := exists_first_match planName plans hocc
  refine ⟨pre, plan, post, hsplit, hpre, hplan, _, rfl, ?_⟩
  have h := rangePlans_first env serviceInstance planName paramsMap pre plan post
    (t ++ [Event.OrganizationFields,
      Event.GetPlansForServiceForOrg serviceInstance.ServiceOffering.Guid
        env.OrganizationFields.Name (.ok plans)]) hpre hplan
  rw [← hsplit] at h
  simpa [updateServiceWithPlan, hlist] using h

/-- Witness of C1: among the sample plans, two of which are named `gold`, the update
call for `gold` carries the `Guid` of the first of them. -/
theorem updateServiceWithPlan_first_match_witness :
    sampleEnv.GetPlansForServiceForOrg ([] ++ [Event.OrganizationFields])
      sampleInstance.ServiceOffering.Guid sampleEnv.OrganizationFields.Name = .ok samplePlans ∧
    (∃ p ∈ samplePlans, p.Name = "gold") ∧
    (∃ pre plan post, samplePlans = pre ++ plan :: post ∧ (∀ p ∈ pre, p.Name ≠ "gold") ∧
      plan.Name = "gold" ∧
      ∃ res, res = sampleEnv.UpdateServiceInstance
          ([] ++ [Event.OrganizationFields,
            Event.GetPlansForServiceForOrg sampleInstance.ServiceOffering.Guid
              sampleEnv.OrganizationFields.Name (.ok samplePlans)])
          sampleInstance.Guid plan.Guid [("ram_gb", "4")] ∧
        updateServiceWithPlan sampleEnv sampleInstance "gold" [("ram_gb", "4")] [] =
          (res, [] ++ [Event.OrganizationFields,
            Event.GetPlansForServiceForOrg sampleInstance.ServiceOffering.Guid
              sampleEnv.OrganizationFields.Name (.ok samplePlans),
            Event.UpdateServiceInstance sampleInstance.Guid plan.Guid [("ram_gb", "4")]
              res])) ∧
    updateServiceWithPlan sampleEnv sampleInstance "gold" [("ram_gb", "4")] [] =
      (none, [Event.OrganizationFields,
        Event.GetPlansForServiceForOrg "postgres-guid" "my-org" (.ok samplePlans),
        Event.UpdateServiceInstance "instance-guid" "gold-guid-1" [("ram_gb", "4")] none]) :=
  ⟨rfl, ⟨⟨"gold-guid-2", "gold", "postgres-guid", []⟩, by decide, rfl⟩,
    updateServiceWithPlan_first_match sampleEnv sampleInstance "gold" [("ram_gb", "4")] []
      samplePlans rfl ⟨⟨"gold-guid-2", "gold", "postgres-guid", []⟩, by decide, rfl⟩,
    by decide⟩

/-- Claim C2: when the plan listing succeeds and no plan of the list (the empty list
included) has the requested name, `updateServiceWithPlan` makes no update call and
returns the error whose message is the "Plan does not exist for the {{.ServiceName}}
service" message built from the `Label` of the instance's service offering; and in every
run of `Run` on an instance that was found, if the listing answered such a list then
`Run` makes no update call, ends with `ui.Failed` of that message and prints no `Ok`. -/
theorem plan_not_found (env : Env) (inst : ServiceInstance) :
    (∀ (planName : String) (paramsMap : ParamsMap) (t : Trace) (plans : List ServicePlanFields),
      env.GetPlansForServiceForOrg (t ++ [Event.OrganizationFields]) inst.ServiceOffering.Guid
        env.OrganizationFields.Name = .ok plans →
      (∀ p ∈ plans, p.Name ≠ planName) →
      updateServiceWithPlan env inst planName paramsMap t =
        (some ⟨env.T msgPlanDoesNotExist [("ServiceName", inst.ServiceOffering.Label)]⟩,
         t ++ [Event.OrganizationFields,
           Event.GetPlansForServiceForOrg inst.ServiceOffering.Guid env.OrganizationFields.Name
             (.ok plans)])) ∧
    (∀ (c : Context) (t : Trace) (name : String) (rest : List String),
      c.Args = name :: rest →
      env.FindInstanceByName t name = .ok inst →
      ∃ new, Run env c t = some (t ++ new) ∧
        ∀ og org plans, Event.GetPlansForServiceForOrg og org (.ok plans) ∈ new →
          (∀ p ∈ plans, p.Name ≠ c.Flag "p") →
          (∀ e ∈ new, e.isUpdate = false) ∧
          new.getLast? = some (Event.Failed
            (env.T msgPlanDoesNotExist [("ServiceName", inst.ServiceOffering.Label)])) ∧
          Event.Ok ∉ new) := by
  constructor
  · intro planName paramsMap t plans hlist hno
    simp [updateServiceWithPlan, hlist,
      rangePlans_none env inst planName paramsMap plans _ hno]
  · intro c t name rest hargs hfind
    rcases hp : env.ParseJsonFromFileOrString
      (t ++ [Event.FindInstanceByName name (.ok inst)]) (c.Flag "c") with ⟨pm, _ | perr⟩
    · by_cases hplan : c.Flag "p" = ""
      · refine ⟨_, Run_no_plan_trace env c t name rest inst pm hargs hfind hp hplan, ?_⟩
        simp
      · cases hmin : env.IsMinApiVersion "2.16.0" with
        | false =>
          refine ⟨_, Run_version_mismatch_trace env c t name rest inst pm hargs hfind hp hplan
            hmin, ?_⟩
          simp [planPathHead]
        | true =>
          obtain ⟨tail, htail, hrun⟩ :=
            Run_plan_path env c t name rest inst pm hargs hfind hp hplan hmin
          refine ⟨_, hrun, ?_⟩
          intro og org listed hin hno
          cases htail with
          | listingFailed err => simp [planPathHead] at hin
          | noSuchPlan plans hno₁ => simp [planPathHead, Event.isUpdate]
          | updateFailed plans plan err hmem hname =>
            obtain ⟨-, -, rfl⟩ : og = _ ∧ org = _ ∧ listed = plans := by
              simpa [planPathHead] using hin
            exact absurd hname (hno plan hmem)
          | refetchFailed plans plan err hmem hname =>
            obtain ⟨-, -, rfl⟩ : og = _ ∧ org = _ ∧ listed = plans := by
              simpa [planPathHead] using hin
            exact absurd hname (hno plan hmem)
          | inProgress plans plan inst₂ hmem hname hstate =>
            obtain ⟨-, -, rfl⟩ : og = _ ∧ org = _ ∧ listed = plans := by
              simpa [planPathHead] using hin
            exact absurd hname (hno plan hmem)
          | completed plans plan inst₂ hmem hname hstate =>
            obtain ⟨-, -, rfl⟩ : og = _ ∧ org = _ ∧ listed = plans := by
              simpa [planPathHead] using hin
            exact absurd hname (hno plan hmem)
    · refine ⟨_, Run_parse_error_trace env c t name rest inst pm perr hargs hfind hp, ?_⟩
      simp

/-- Witness of C2: no sample plan is named `bronze`; asked for `bronze`,
`updateServiceWithPlan` returns the error and `Run` ends with its message. -/
theorem plan_not_found_witness :
    (∀ p ∈ samplePlans, p.Name ≠ "bronze") ∧
    updateServiceWithPlan sampleEnv sampleInstance "bronze" [] [] =
      (some ⟨sampleEnv.T msgPlanDoesNotExist [("ServiceName", "postgres")]⟩,
       [Event.OrganizationFields,
        Event.GetPlansForServiceForOrg "postgres-guid" "my-org" (.ok samplePlans)]) ∧
    Run sampleEnv (sampleContext "bronze" "\x7b\x7d") [] = some
      [Event.FindInstanceByName "mydb" (.ok sampleInstance),
       Event.ParseJsonFromFileOrString "\x7b\x7d" ([], none),
       Event.Username,
       Event.Say (sampleEnv.T msgUpdating [("ServiceName", "mydb"), ("UserName", "admin")]),
       Event.IsMinApiVersion "2.16.0",
       Event.OrganizationFields,
       Event.GetPlansForServiceForOrg "postgres-guid" "my-org" (.ok samplePlans),
       Event.Failed (sampleEnv.T msgPlanDoesNotExist [("ServiceName", "postgres")])] := by
  have hno : ∀ p ∈ samplePlans, p.Name ≠ "bronze" := by decide
  have h := plan_not_found sampleEnv sampleInstance
  exact ⟨hno, h.1 "bronze" [] [] samplePlans rfl hno, by decide⟩

/-- Claim C3, as amended: when the lookup succeeds, the `-p` plan name is not empty and
`config.IsMinApiVersion("2.16.0")` is false, `Run` makes no plan-listing call and no
update call; and when moreover the parse of the `-c` parameters answers no error, its
last call is `ui.Failed` with the version-mismatch message whose required version is
`2.16.0` and whose current version is `config.ApiVersion()`. -/
theorem Run_version_mismatch_after_parse (env : Env) (c : Context) (t : Trace) (name : String)
    (rest : List String) (inst : ServiceInstance) (hargs : c.Args = name :: rest)
    (hfind : env.FindInstanceByName t name = .ok inst) (hplan : c.Flag "p" ≠ "")
    (hmin : env.IsMinApiVersion "2.16.0" = false) :
    ∃ new, Run env c t = some (t ++ new) ∧
      (∀ e ∈ new, e.isPlanListing = false) ∧
      (∀ e ∈ new, e.isUpdate = false) ∧
      ((env.ParseJsonFromFileOrString (t ++ [Event.FindInstanceByName name (.ok inst)])
          (c.Flag "c")).2 = none →
        new.getLast? = some (Event.Failed (env.T msgVersionMismatch
          [("RequiredCCAPIVersion", "2.16.0"), ("CurrentCCAPIVersion", env.ApiVersion)]))) := by
  rcases hp : env.ParseJsonFromFileOrString
    (t ++ [Event.FindInstanceByName name (.ok inst)]) (c.Flag "c") with ⟨pm, _ | perr⟩
  · refine ⟨_, Run_version_mismatch_trace env c t name rest inst pm hargs hfind hp hplan hmin,
      ?_⟩
    simp [planPathHead, Event.isPlanListing, Event.isUpdate]
  · refine ⟨_, Run_parse_error_trace env c t name rest inst pm perr hargs hfind hp, ?_⟩
    simp [Event.isPlanListing, Event.isUpdate]

/-- Witness of C3 as amended: `cf update-service mydb -p gold` against a target at API
2.15.0, with no `-c`. -/
theorem Run_version_mismatch_after_parse_witness :
    (sampleContext "gold" "").Args = "mydb" :: [] ∧
    envOldApi.FindInstanceByName [] "mydb" = .ok sampleInstance ∧
    (sampleContext "gold" "").Flag "p" ≠ "" ∧
    envOldApi.IsMinApiVersion "2.16.0" = false ∧
    (envOldApi.ParseJsonFromFileOrString ([] ++ [Event.FindInstanceByName "mydb"
      (.ok sampleInstance)]) ((sampleContext "gold" "").Flag "c")).2 = none ∧
    ∃ new, Run envOldApi (sampleContext "gold" "") [] = some ([] ++ new) ∧
      (∀ e ∈ new, e.isPlanListing = false) ∧
      (∀ e ∈ new, e.isUpdate = false) ∧
      new.getLast? = some (Event.Failed (envOldApi.T msgVersionMismatch
        [("RequiredCCAPIVersion", "2.16.0"), ("CurrentCCAPIVersion", "2.15.0")])) := by
  obtain ⟨new, hrun, h₁, h₂, h₃⟩ :=
    Run_version_mismatch_after_parse envOldApi (sampleContext "gold" "") [] "mydb" []
      sampleInstance rfl rfl (by decide) rfl
  exact ⟨rfl, rfl, by decide, rfl, rfl, new, hrun, h₁, h₂, h₃ rfl⟩

/-- Counterexample to C3 as stated: the lookup succeeds, the plan name is `gold`, the
target API is 2.15.0, and the JSON reader rejects the `-c` value. The invocation ends
in the invalid-configuration failure, and `ui.Failed` is never called with the
version-mismatch message. -/
theorem Run_version_mismatch_counterexample :
    (sampleContext "gold" "ram_gb=4").Args = "mydb" :: [] ∧
    envOldApi.FindInstanceByName [] "mydb" = .ok sampleInstance ∧
    (sampleContext "gold" "ram_gb=4").Flag "p" ≠ "" ∧
    envOldApi.IsMinApiVersion "2.16.0" = false ∧
    Run envOldApi (sampleContext "gold" "ram_gb=4") [] = some
      [Event.FindInstanceByName "mydb" (.ok sampleInstance),
       Event.ParseJsonFromFileOrString "ram_gb=4" ([], some ⟨"invalid character"⟩),
       Event.Failed (envOldApi.T msgInvalidConfiguration [])] ∧
    Event.Failed (envOldApi.T msgVersionMismatch
        [("RequiredCCAPIVersion", "2.16.0"), ("CurrentCCAPIVersion", "2.15.0")]) ∉
      [Event.FindInstanceByName "mydb" (.ok sampleInstance),
       Event.ParseJsonFromFileOrString "ram_gb=4" ([], some ⟨"invalid character"⟩),
       Event.Failed (envOldApi.T msgInvalidConfiguration [])] := by
  refine ⟨rfl, rfl, by decide, rfl, by decide, by decide⟩

/-- Claim C4, as amended: when the lookup succeeds and the `-p` plan name is empty,
whatever the `-c` parameters are and whatever their parse answers, `Run` makes no
plan-listing call and no update call and reads the API version neither through
`IsMinApiVersion` nor through `ApiVersion`; and when the parse of the `-c` parameters
answers no error, its last two calls on the user interface are `ui.Ok()` and then
`ui.Say` of "No changes were made". -/
theorem Run_no_plan_noop_after_parse (env : Env) (c : Context) (t : Trace) (name : String)
    (rest : List String) (inst : ServiceInstance) (hargs : c.Args = name :: rest)
    (hfind : env.FindInstanceByName t name = .ok inst) (hplan : c.Flag "p" = "") :
    ∃ new, Run env c t = some (t ++ new) ∧
      (∀ e ∈ new, e.isPlanListing = false) ∧
      (∀ e ∈ new, e.isUpdate = false) ∧
      (∀ e ∈ new, e.isApiVersionRead = false) ∧
      ((env.ParseJsonFromFileOrString (t ++ [Event.FindInstanceByName name (.ok inst)])
          (c.Flag "c")).2 = none →
        ∃ pre, uiEffects new = pre ++ [Event.Ok, Event.Say (env.T msgNoChanges [])]) := by
  rcases hp : env.ParseJsonFromFileOrString
    (t ++ [Event.FindInstanceByName name (.ok inst)]) (c.Flag "c") with ⟨pm, _ | perr⟩
  · refine ⟨_, Run_no_plan_trace env c t name rest inst pm hargs hfind hp hplan, ?_⟩
    simp [Event.isPlanListing, Event.isUpdate, Event.isApiVersionRead, uiEffects, Event.isUI]
  · refine ⟨_, Run_parse_error_trace env c t name rest inst pm perr hargs hfind hp, ?_⟩
    simp [Event.isPlanListing, Event.isUpdate, Event.isApiVersionRead]

/-- Witness of C4 as amended: `cf update-service mydb -c {}`. -/
theorem Run_no_plan_noop_after_parse_witness :
    (sampleContext "" "\x7b\x7d").Args = "mydb" :: [] ∧
    sampleEnv.FindInstanceByName [] "mydb" = .ok sampleInstance ∧
    (sampleContext "" "\x7b\x7d").Flag "p" = "" ∧
    (sampleEnv.ParseJsonFromFileOrString ([] ++ [Event.FindInstanceByName "mydb"
      (.ok sampleInstance)]) ((sampleContext "" "\x7b\x7d").Flag "c")).2 = none ∧
    ∃ new, Run sampleEnv (sampleContext "" "\x7b\x7d") [] = some ([] ++ new) ∧
      (∀ e ∈ new, e.isPlanListing = false) ∧
      (∀ e ∈ new, e.isUpdate = false) ∧
      (∀ e ∈ new, e.isApiVersionRead = false) ∧
      ∃ pre, uiEffects new = pre ++ [Event.Ok, Event.Say (sampleEnv.T msgNoChanges [])] := by
  obtain ⟨new, hrun, h₁, h₂, h₃, h₄⟩ :=
    Run_no_plan_noop_after_parse sampleEnv (sampleContext "" "\x7b\x7d") [] "mydb" []
      sampleInstance rfl rfl rfl
  exact ⟨rfl, rfl, rfl, rfl, new, hrun, h₁, h₂, h₃, h₄ rfl⟩

/-- Counterexample to C4 as stated: the lookup succeeds, no plan name is given, and
the JSON reader rejects the `-c` value. The invocation ends in the
invalid-configuration failure: that failure is its only call on the user interface,
and neither `Ok` nor "No changes were made" is printed. -/
theorem Run_no_plan_counterexample :
    (sampleContext "" "ram_gb=4").Args = "mydb" :: [] ∧
    sampleEnv.FindInstanceByName [] "mydb" = .ok sampleInstance ∧
    (sampleContext "" "ram_gb=4").Flag "p" = "" ∧
    Run sampleEnv (sampleContext "" "ram_gb=4") [] = some
      [Event.FindInstanceByName "mydb" (.ok sampleInstance),
       Event.ParseJsonFromFileOrString "ram_gb=4" ([], some ⟨"invalid character"⟩),
       Event.Failed (sampleEnv.T msgInvalidConfiguration [])] ∧
    uiEffects
      [Event.FindInstanceByName "mydb" (.ok sampleInstance),
       Event.ParseJsonFromFileOrString "ram_gb=4" ([], some ⟨"invalid character"⟩),
       Event.Failed (sampleEnv.T msgInvalidConfiguration [])] =
      [Event.Failed (sampleEnv.T msgInvalidConfiguration [])] ∧
    ¬ ∃ pre, uiEffects
      [Event.FindInstanceByName "mydb" (.ok sampleInstance),
       Event.ParseJsonFromFileOrString "ram_gb=4" ([], some ⟨"invalid character"⟩),
       Event.Failed (sampleEnv.T msgInvalidConfiguration [])] =
      pre ++ [Event.Ok, Event.Say (sampleEnv.T msgNoChanges [])] := by
  refine ⟨rfl, rfl, rfl, by decide, by decide, ?_⟩
  rintro ⟨pre, h⟩
  have hlen := congrArg List.length h
  have hone : (uiEffects
      [Event.FindInstanceByName "mydb" (.ok sampleInstance),
       Event.ParseJsonFromFileOrString "ram_gb=4" ([], some ⟨"invalid character"⟩),
       Event.Failed (sampleEnv.T msgInvalidConfiguration [])]).length = 1 := by decide
  rw [hone] at hlen
  simp at hlen

/-- Claim C5: when the lookup succeeds and `json.ParseJsonFromFileOrString` answers an
error, whatever the `-p` plan name and the API version are, the trace of `Run` is the
lookup, the parse and `ui.Failed` with the invalid-configuration message, and nothing
else: no plan-listing call, no update call, no `Ok`, no "No changes were made". -/
theorem Run_invalid_json_is_terminal (env : Env) (c : Context) (t : Trace) (name : String)
    (rest : List String) (inst : ServiceInstance) (pm : ParamsMap) (perr : GoError)
    (hargs : c.Args = name :: rest)
    (hfind : env.FindInstanceByName t name = .ok inst)
    (hparse : env.ParseJsonFromFileOrString (t ++ [Event.FindInstanceByName name (.ok inst)])
      (c.Flag "c") = (pm, some perr)) :
    Run env c t = some (t ++
      [Event.FindInstanceByName name (.ok inst),
       Event.ParseJsonFromFileOrString (c.Flag "c") (pm, some perr),
       Event.Failed (env.T msgInvalidConfiguration [])]) := by
  simp [Run, hargs, hfind, hparse, UI.Failed]

/-- Witness of C5: the JSON reader rejects `ram_gb=4`; with the plan name `gold` and a
recent API, and with no plan name and an old API, the invocation ends in the
invalid-configuration failure. -/
theorem Run_invalid_json_is_terminal_witness :
    (sampleContext "gold" "ram_gb=4").Args = "mydb" :: [] ∧
    sampleEnv.FindInstanceByName [] "mydb" = .ok sampleInstance ∧
    sampleEnv.ParseJsonFromFileOrString ([] ++ [Event.FindInstanceByName "mydb"
      (.ok sampleInstance)]) ((sampleContext "gold" "ram_gb=4").Flag "c") =
      ([], some ⟨"invalid character"⟩) ∧
    Run sampleEnv (sampleContext "gold" "ram_gb=4") [] = some ([] ++
      [Event.FindInstanceByName "mydb" (.ok sampleInstance),
       Event.ParseJsonFromFileOrString ((sampleContext "gold" "ram_gb=4").Flag "c")
         ([], some ⟨"invalid character"⟩),
       Event.Failed (sampleEnv.T msgInvalidConfiguration [])]) ∧
    Run envOldApi (sampleContext "" "ram_gb=4") [] = some ([] ++
      [Event.FindInstanceByName "mydb" (.ok sampleInstance),
       Event.ParseJsonFromFileOrString ((sampleContext "" "ram_gb=4").Flag "c")
         ([], some ⟨"invalid character"⟩),
       Event.Failed (envOldApi.T msgInvalidConfiguration [])]) :=
  ⟨rfl, rfl, rfl,
    Run_invalid_json_is_terminal sampleEnv (sampleContext "gold" "ram_gb=4") [] "mydb" []
      sampleInstance [] ⟨"invalid character"⟩ rfl rfl rfl,
    Run_invalid_json_is_terminal envOldApi (sampleContext "" "ram_gb=4") [] "mydb" []
      sampleInstance [] ⟨"invalid character"⟩ rfl rfl rfl⟩

/-- Claim C6: in every run of `Run` in which the update call answered the nil error and
the lookup that follows it found an instance, that lookup is by the name `Run` was
given, and: if the `LastOperation.State` of the instance found is exactly
`in progress`, the calls on the user interface after the update are `Ok`, the empty
line, and the status-check message built from the title-cased `LastOperation.Type`,
`cf services` and `cf service` followed by the instance name; for every other state
the only call on the user interface after the update is one `Ok`. -/
theorem Run_success_message (env : Env) (c : Context) (t : Trace) (name : String)
    (rest : List String) (hargs : c.Args = name :: rest) :
    ∃ new, Run env c t = some (t ++ new) ∧
      ∀ ig pg pm nm inst₂, Event.UpdateServiceInstance ig pg pm none ∈ new →
        Event.FindInstanceByName nm (.ok inst₂) ∈ afterUpdate new →
        nm = name ∧
        (inst₂.LastOperation.State = "in progress" →
          uiEffects (afterUpdate new) =
            [Event.Ok, Event.Say "",
             Event.Say (env.T msgInProgress
               [("State", env.Title inst₂.LastOperation.«Type»),
                ("ServicesCommand", env.CommandColor "cf services"),
                ("ServiceCommand", env.CommandColor ("cf service " ++ name))])]) ∧
        (inst₂.LastOperation.State ≠ "in progress" →
          uiEffects (afterUpdate new) = [Event.Ok]) := by
  cases hfind : env.FindInstanceByName t name with
  | error e =>
    refine ⟨_, Run_lookup_error_trace env c t name rest e hargs hfind, ?_⟩
    simp
  | ok inst =>
    rcases hp : env.ParseJsonFromFileOrString
      (t ++ [Event.FindInstanceByName name (.ok inst)]) (c.Flag "c") with ⟨pm, _ | perr⟩
    · by_cases hplan : c.Flag "p" = ""
      · refine ⟨_, Run_no_plan_trace env c t name rest inst pm hargs hfind hp hplan, ?_⟩
        simp
      · cases hmin : env.IsMinApiVersion "2.16.0" with
        | false =>
          refine ⟨_, Run_version_mismatch_trace env c t name rest inst pm hargs hfind hp hplan
            hmin, ?_⟩
          simp [planPathHead]
        | true =>
          obtain ⟨tail, htail, hrun⟩ :=
            Run_plan_path env c t name rest inst pm hargs hfind hp hplan hmin
          refine ⟨_, hrun, ?_⟩
          cases htail <;>
            simp [planPathHead, afterUpdate, uiEffects, Event.isUpdate, Event.isUI] <;>
            (intros; subst_vars; simp_all)
    · refine ⟨_, Run_parse_error_trace env c t name rest inst pm perr hargs hfind hp, ?_⟩
      simp

/-- Witness of C6: after the update to `gold`, the instance found in state
`in progress` gives `Ok`, the empty line and the status-check message, and the
instance found in state `In Progress` gives one `Ok`. -/
theorem Run_success_message_witness :
    (sampleContext "gold" "\x7b\x7d").Args = "mydb" :: [] ∧
    (∃ new, Run sampleEnv (sampleContext "gold" "\x7b\x7d") [] = some new ∧
      Event.UpdateServiceInstance "instance-guid" "gold-guid-1" [] none ∈ new ∧
      Event.FindInstanceByName "mydb" (.ok sampleInstanceUpdating) ∈ afterUpdate new ∧
      uiEffects (afterUpdate new) =
        [Event.Ok, Event.Say "",
         Event.Say (sampleEnv.T msgInProgress
           [("State", "Update"), ("ServicesCommand", "cf services"),
            ("ServiceCommand", "cf service mydb")])]) ∧
    (∃ new, Run envCapitals (sampleContext "gold" "\x7b\x7d") [] = some new ∧
      Event.UpdateServiceInstance "instance-guid" "gold-guid-1" [] none ∈ new ∧
      Event.FindInstanceByName "mydb" (.ok sampleInstanceCapitals) ∈ afterUpdate new ∧
      uiEffects (afterUpdate new) = [Event.Ok]) := by
  obtain ⟨new₁, hrun₁, h₁⟩ :=
    Run_success_message sampleEnv (sampleContext "gold" "\x7b\x7d") [] "mydb" [] rfl
  obtain ⟨new₂, hrun₂, h₂⟩ :=
    Run_success_message envCapitals (sampleContext "gold" "\x7b\x7d") [] "mydb" [] rfl
  have hc₁ : Run sampleEnv (sampleContext "gold" "\x7b\x7d") [] = some
      [Event.FindInstanceByName "mydb" (.ok sampleInstance),
       Event.ParseJsonFromFileOrString "\x7b\x7d" ([], none),
       Event.Username,
       Event.Say (sampleEnv.T msgUpdating [("ServiceName", "mydb"), ("UserName", "admin")]),
       Event.IsMinApiVersion "2.16.0",
       Event.OrganizationFields,
       Event.GetPlansForServiceForOrg "postgres-guid" "my-org" (.ok samplePlans),
       Event.UpdateServiceInstance "instance-guid" "gold-guid-1" [] none,
       Event.FindInstanceByName "mydb" (.ok sampleInstanceUpdating),
       Event.Ok,
       Event.Say "",
       Event.Say (sampleEnv.T msgInProgress
         [("State", "Update"), ("ServicesCommand", "cf services"),
          ("ServiceCommand", "cf service mydb")])] := by rfl
  have hc₂ : Run envCapitals (sampleContext "gold" "\x7b\x7d") [] = some
      [Event.FindInstanceByName "mydb" (.ok sampleInstance),
       Event.ParseJsonFromFileOrString "\x7b\x7d" ([], none),
       Event.Username,
       Event.Say (sampleEnv.T msgUpdating [("ServiceName", "mydb"), ("UserName", "admin")]),
       Event.IsMinApiVersion "2.16.0",
       Event.OrganizationFields,
       Event.GetPlansForServiceForOrg "postgres-guid" "my-org" (.ok samplePlans),
       Event.UpdateServiceInstance "instance-guid" "gold-guid-1" [] none,
       Event.FindInstanceByName "mydb" (.ok sampleInstanceCapitals),
       Event.Ok] := by decide
  have e₁ := hrun₁
  have e₂ := hrun₂
  rw [hc₁, List.nil_append, Option.some.injEq] at e₁
  rw [hc₂, List.nil_append, Option.some.injEq] at e₂
  have m₁ : Event.UpdateServiceInstance "instance-guid" "gold-guid-1" [] none ∈ new₁ := by
    rw [← e₁]; decide
  have r₁ : Event.FindInstanceByName "mydb" (.ok sampleInstanceUpdating)
      ∈ afterUpdate new₁ := by rw [← e₁]; decide
  have m₂ : Event.UpdateServiceInstance "instance-guid" "gold-guid-1" [] none ∈ new₂ := by
    rw [← e₂]; decide
  have r₂ : Event.FindInstanceByName "mydb" (.ok sampleInstanceCapitals)
      ∈ afterUpdate new₂ := by rw [← e₂]; decide
  exact ⟨rfl,
    ⟨new₁, by simpa using hrun₁, m₁, r₁, (h₁ _ _ _ _ _ m₁ r₁).2.1 rfl⟩,
    ⟨new₂, by simpa using hrun₂, m₂, r₂, (h₂ _ _ _ _ _ m₂ r₂).2.2 (by decide)⟩⟩

/-- Claim C7: when the initial lookup returns an error, `Run` adds exactly two calls to
the trace, the lookup and `ui.Failed` with the message of that error: no parse of the
`-c` parameters, no plan listing, no update, no second lookup, no other output. -/
theorem Run_lookup_error (env : Env) (c : Context) (t : Trace) (name : String)
    (rest : List String) (err : GoError) (hargs : c.Args = name :: rest)
    (hfind : env.FindInstanceByName t name = .error err) :
    Run env c t = some (t ++ [Event.FindInstanceByName name (.error err),
      Event.Failed err.Error]) := by
  simp [Run, hargs, hfind, UI.Failed]

/-- Witness of C7: the instance `mydb` is not found. -/
theorem Run_lookup_error_witness :
    (sampleContext "gold" "\x7b\x7d").Args = "mydb" :: [] ∧
    envLookupFails.FindInstanceByName [] "mydb" = .error ⟨"Service instance mydb not found"⟩ ∧
    Run envLookupFails (sampleContext "gold" "\x7b\x7d") [] = some ([] ++
      [Event.FindInstanceByName "mydb" (.error ⟨"Service instance mydb not found"⟩),
       Event.Failed "Service instance mydb not found"]) :=
  ⟨rfl, rfl,
    Run_lookup_error envLookupFails (sampleContext "gold" "\x7b\x7d") [] "mydb" []
      ⟨"Service instance mydb not found"⟩ rfl rfl⟩

/-- Claim C8: in every run of `Run` with a plan name and a recent enough API,
(i) if the plan listing answered an error, it was called once, no update call is made
and the last call is `ui.Failed` with the message of that error; (ii) if the update
call answered an error, it is the only update call, no lookup follows it, no `Ok` is
printed and the last call is `ui.Failed` with the message of that error; (iii) if the
update succeeded and the lookup that follows it answered an error, no `Ok` is printed
and the last call is `ui.Failed` with the message of that error. -/
theorem Run_api_errors_surface (env : Env) (c : Context) (t : Trace) (name : String)
    (rest : List String) (hargs : c.Args = name :: rest) (hplan : c.Flag "p" ≠ "")
    (hmin : env.IsMinApiVersion "2.16.0" = true) :
    ∃ new, Run env c t = some (t ++ new) ∧
      (∀ og org err, Event.GetPlansForServiceForOrg og org (.error err) ∈ new →
        (new.filter Event.isPlanListing).length = 1 ∧
        (∀ e ∈ new, e.isUpdate = false) ∧
        new.getLast? = some (Event.Failed err.Error)) ∧
      (∀ ig pg pm err, Event.UpdateServiceInstance ig pg pm (some err) ∈ new →
        new.filter Event.isUpdate = [Event.UpdateServiceInstance ig pg pm (some err)] ∧
        (∀ e ∈ afterUpdate new, e.isFind = false) ∧
        Event.Ok ∉ new ∧
        new.getLast? = some (Event.Failed err.Error)) ∧
      (∀ ig pg pm nm err, Event.UpdateServiceInstance ig pg pm none ∈ new →
        Event.FindInstanceByName nm (.error err) ∈ afterUpdate new →
        Event.Ok ∉ new ∧
        new.getLast? = some (Event.Failed err.Error)) := by
  cases hfind : env.FindInstanceByName t name with
  | error e =>
    refine ⟨_, Run_lookup_error_trace env c t name rest e hargs hfind, ?_⟩
    simp [afterUpdate, Event.isUpdate]
  | ok inst =>
    rcases hp : env.ParseJsonFromFileOrString
      (t ++ [Event.FindInstanceByName name (.ok inst)]) (c.Flag "c") with ⟨pm, _ | perr⟩
    · obtain ⟨tail, htail, hrun⟩ :=
        Run_plan_path env c t name rest inst pm hargs hfind hp hplan hmin
      refine ⟨_, hrun, ?_⟩
      cases htail <;>
        simp [planPathHead, afterUpdate, Event.isUpdate, Event.isPlanListing, Event.isFind] <;>
        (intros; subst_vars; simp)
    · refine ⟨_, Run_parse_error_trace env c t name rest inst pm perr hargs hfind hp, ?_⟩
      simp [afterUpdate, Event.isUpdate]

/-- Witness of C8: the three failures, each in its own environment; every run ends
with `ui.Failed` of the message of the error and prints no `Ok`. -/
theorem Run_api_errors_surface_witness :
    (sampleContext "gold" "\x7b\x7d").Args = "mydb" :: [] ∧
    (sampleContext "gold" "\x7b\x7d").Flag "p" ≠ "" ∧
    envListingFails.IsMinApiVersion "2.16.0" = true ∧
    envUpdateFails.IsMinApiVersion "2.16.0" = true ∧
    envRefetchFails.IsMinApiVersion "2.16.0" = true ∧
    (∃ new, Run envListingFails (sampleContext "gold" "\x7b\x7d") [] = some new ∧
      Event.GetPlansForServiceForOrg "postgres-guid" "my-org" (.error ⟨"listing failed"⟩) ∈ new ∧
      (∀ e ∈ new, e.isUpdate = false) ∧
      new.getLast? = some (Event.Failed "listing failed")) ∧
    (∃ new, Run envUpdateFails (sampleContext "gold" "\x7b\x7d") [] = some new ∧
      new.filter Event.isUpdate =
        [Event.UpdateServiceInstance "instance-guid" "gold-guid-1" [] (some ⟨"update failed"⟩)] ∧
      Event.Ok ∉ new ∧
      new.getLast? = some (Event.Failed "update failed")) ∧
    (∃ new, Run envRefetchFails (sampleContext "gold" "\x7b\x7d") [] = some new ∧
      Event.FindInstanceByName "mydb" (.error ⟨"lookup failed"⟩) ∈ afterUpdate new ∧
      Event.Ok ∉ new ∧
      new.getLast? = some (Event.Failed "lookup failed")) := by
  obtain ⟨new₁, hrun₁, h₁, -, -⟩ :=
    Run_api_errors_surface envListingFails (sampleContext "gold" "\x7b\x7d") [] "mydb" []
      rfl (by decide) rfl
  obtain ⟨new₂, hrun₂, -, h₂, -⟩ :=
    Run_api_errors_surface envUpdateFails (sampleContext "gold" "\x7b\x7d") [] "mydb" []
      rfl (by decide) rfl
  obtain ⟨new₃, hrun₃, -, -, h₃⟩ :=
    Run_api_errors_surface envRefetchFails (sampleContext "gold" "\x7b\x7d") [] "mydb" []
      rfl (by decide) rfl
  have hc₁ : Run envListingFails (sampleContext "gold" "\x7b\x7d") [] = some
      [Event.FindInstanceByName "mydb" (.ok sampleInstance),
       Event.ParseJsonFromFileOrString "\x7b\x7d" ([], none),
       Event.Username,
       Event.Say (sampleEnv.T msgUpdating [("ServiceName", "mydb"), ("UserName", "admin")]),
       Event.IsMinApiVersion "2.16.0",
       Event.OrganizationFields,
       Event.GetPlansForServiceForOrg "postgres-guid" "my-org" (.error ⟨"listing failed"⟩),
       Event.Failed "listing failed"] := by decide
  have hc₂ : Run envUpdateFails (sampleContext "gold" "\x7b\x7d") [] = some
      [Event.FindInstanceByName "mydb" (.ok sampleInstance),
       Event.ParseJsonFromFileOrString "\x7b\x7d" ([], none),
       Event.Username,
       Event.Say (sampleEnv.T msgUpdating [("ServiceName", "mydb"), ("UserName", "admin")]),
       Event.IsMinApiVersion "2.16.0",
       Event.OrganizationFields,
       Event.GetPlansForServiceForOrg "postgres-guid" "my-org" (.ok samplePlans),
       Event.UpdateServiceInstance "instance-guid" "gold-guid-1" [] (some ⟨"update failed"⟩),
       Event.Failed "update failed"] := by decide
  have hc₃ : Run envRefetchFails (sampleContext "gold" "\x7b\x7d") [] = some
      [Event.FindInstanceByName "mydb" (.ok sampleInstance),
       Event.ParseJsonFromFileOrString "\x7b\x7d" ([], none),
       Event.Username,
       Event.Say (sampleEnv.T msgUpdating [("ServiceName", "mydb"), ("UserName", "admin")]),
       Event.IsMinApiVersion "2.16.0",
       Event.OrganizationFields,
       Event.GetPlansForServiceForOrg "postgres-guid" "my-org" (.ok samplePlans),
       Event.UpdateServiceInstance "instance-guid" "gold-guid-1" [] none,
       Event.FindInstanceByName "mydb" (.error ⟨"lookup failed"⟩),
       Event.Failed "lookup failed"] := by decide
  have e₁ := hrun₁
  have e₂ := hrun₂
  have e₃ := hrun₃
  rw [hc₁, List.nil_append, Option.some.injEq] at e₁
  rw [hc₂, List.nil_append, Option.some.injEq] at e₂
  rw [hc₃, List.nil_append, Option.some.injEq] at e₃
  have m₁ : Event.GetPlansForServiceForOrg "postgres-guid" "my-org"
      (.error ⟨"listing failed"⟩) ∈ new₁ := by rw [← e₁]; decide
  have m₂ : Event.UpdateServiceInstance "instance-guid" "gold-guid-1" []
      (some ⟨"update failed"⟩) ∈ new₂ := by rw [← e₂]; decide
  have m₃ : Event.UpdateServiceInstance "instance-guid" "gold-guid-1" [] none ∈ new₃ := by
    rw [← e₃]; decide
  have r₃ : Event.FindInstanceByName "mydb" (.error ⟨"lookup failed"⟩) ∈ afterUpdate new₃ := by
    rw [← e₃]; decide
  have k₁ := h₁ _ _ _ m₁
  have k₂ := h₂ _ _ _ _ m₂
  have k₃ := h₃ _ _ _ _ _ m₃ r₃
  exact ⟨rfl, by decide, rfl, rfl, rfl,
    ⟨new₁, by simpa using hrun₁, m₁, k₁.2.1, k₁.2.2⟩,
    ⟨new₂, by simpa using hrun₂, k₂.1, k₂.2.2.1, k₂.2.2.2⟩,
    ⟨new₃, by simpa using hrun₃, r₃, k₃.1, k₃.2⟩⟩

/-- Claim C9, as amended: `GetRequirements` calls `ui.FailWithUsage` exactly when the
number of positional arguments is not 1, and makes no other call; when the number is 1
it returns the login requirement followed by the targeted-space requirement, with a
nil error; when it is not, the command ends in `FailWithUsage` and nothing is
returned; and on every context for which it did not call `FailWithUsage`, the read of
`c.Args()[0]` in `Run` is in bounds, so that `Run` runs to its end. -/
theorem GetRequirements_validates_one_argument {R : Type} (requirementsFactory : Factory R)
    (c : Context) (t : Trace) :
    (∃ new, (GetRequirements requirementsFactory c t).2 = t ++ new ∧
      (Event.FailWithUsage ∈ new ↔ c.Args.length ≠ 1) ∧
      (∀ e ∈ new, e = Event.FailWithUsage) ∧
      (Event.FailWithUsage ∉ new →
        c.Args[0]?.isSome = true ∧ ∀ (env : Env) (t₁ : Trace), (Run env c t₁).isSome = true)) ∧
    (c.Args.length = 1 →
      (GetRequirements requirementsFactory c t).1 =
        some ([requirementsFactory.NewLoginRequirement,
          requirementsFactory.NewTargetedSpaceRequirement], none)) ∧
    (c.Args.length ≠ 1 → (GetRequirements requirementsFactory c t).1 = none) := by
  by_cases h : c.Args.length = 1
  · refine ⟨⟨[], by simp [GetRequirements, h], by simp [h], by simp, ?_⟩,
      by simp [GetRequirements, h], by simp [h]⟩
    intro _
    obtain ⟨a, ha⟩ := List.length_eq_one.mp h
    refine ⟨by simp [ha], ?_⟩
    intro env t₁
    exact Run_isSome env c t₁ a [] ha
  · exact ⟨⟨[Event.FailWithUsage], by simp [GetRequirements, h, UI.FailWithUsage],
      by simp [h], by simp, by simp⟩, by simp [h], by simp [GetRequirements, h]⟩

/-- Witness of C9 as amended: with the one argument `mydb` nothing is added to the
trace and the two requirements are returned; with two arguments `FailWithUsage` is
called and nothing is returned. -/
theorem GetRequirements_validates_one_argument_witness :
    (sampleContext "" "").Args.length = 1 ∧
    GetRequirements (⟨"login", "targeted space"⟩ : Factory String) (sampleContext "" "") [] =
      (some (["login", "targeted space"], none), []) ∧
    (⟨["mydb", "extra"], fun _ => ""⟩ : Context).Args.length ≠ 1 ∧
    GetRequirements (⟨"login", "targeted space"⟩ : Factory String)
        ⟨["mydb", "extra"], fun _ => ""⟩ [] =
      (none, [Event.FailWithUsage]) := by
  have h₁ := GetRequirements_validates_one_argument
    (⟨"login", "targeted space"⟩ : Factory String) (sampleContext "" "") []
  have h₂ := GetRequirements_validates_one_argument
    (⟨"login", "targeted space"⟩ : Factory String) ⟨["mydb", "extra"], fun _ => ""⟩ []
  exact ⟨rfl, Prod.ext (h₁.2.1 rfl) (by decide), by decide,
    Prod.ext (h₂.2.2 (by decide)) (by decide)⟩

/-- Counterexample to C9 as stated: with no positional argument `GetRequirements` ends
in `FailWithUsage`; it does not return the login and targeted-space requirements
with a nil error, it returns nothing. -/
theorem GetRequirements_no_return_counterexample :
    GetRequirements (⟨"login", "targeted space"⟩ : Factory String) ⟨[], fun _ => ""⟩ [] =
      (none, [Event.FailWithUsage]) ∧
    (GetRequirements (⟨"login", "targeted space"⟩ : Factory String)
        ⟨[], fun _ => ""⟩ []).1 ≠ some (["login", "targeted space"], none) := by
  constructor <;> decide

/-- Claim C10: `IsUserProvided` returns true exactly when the `ServicePlan.Guid` of the
instance is the empty string, and two instances that agree on `ServicePlan.Guid` get
the same answer, whatever their other fields are. -/
theorem IsUserProvided_iff_plan_guid_empty :
    (∀ inst : ServiceInstance, inst.IsUserProvided = true ↔ inst.ServicePlan.Guid = "") ∧
    (∀ inst₁ inst₂ : ServiceInstance, inst₁.ServicePlan.Guid = inst₂.ServicePlan.Guid →
      inst₁.IsUserProvided = inst₂.IsUserProvided) := by
  constructor
  · intro inst
    simp [ServiceInstance.IsUserProvided]
  · intro inst₁ inst₂ h
    simp [ServiceInstance.IsUserProvided, h]

/-- Witness of C10: the sample instance has a plan, a copy of it without a plan is
user-provided, and the two sample instances, which share their plan, agree. -/
theorem IsUserProvided_iff_plan_guid_empty_witness :
    sampleInstance.IsUserProvided = false ∧
    ({ sampleInstance with ServicePlan := ⟨"", "", "", []⟩ } : ServiceInstance).IsUserProvided
      = true ∧
    sampleInstance.IsUserProvided = sampleInstanceUpdating.IsUserProvided :=
  ⟨by decide, by decide, IsUserProvided_iff_plan_guid_empty.2 _ _ rfl⟩

end CF
